import Mathlib

/-!
Verification of the Blockberg frontend trade-execution coordinator
(`MagicBlockClient`): deterministic address derivation, the fixed-layout
account codec, precondition validation, the dual-path (rollup / base chain)
submission executor with its already-processed recovery policy, and the
account-scan based read operations.

Numbers handled by the client as JavaScript numbers are modelled as exact
rationals; `Math.floor` is modelled as the rational floor.  Byte buffers are
lists of naturals below 256.  The network is modelled as a pure oracle
(`Env`) answering account reads, submissions, signature-status queries and
program-account scans; each definition mirrors the corresponding source
function of the client.
-/

namespace Blockberg

/-- A byte buffer: a list of naturals (each intended below 256). -/
abbrev Bytes := List Nat

/-- UTF-8 bytes of an ASCII string, as produced by Buffer.from on the seed
literals of the client. -/
def strBytes (s : String) : Bytes := s.data.map Char.toNat

/-- Little-endian base-256 digits, `k` bytes wide. -/
def leBytes : Nat → Nat → Bytes
  | 0, _ => []
  | k + 1, n => n % 256 :: leBytes k (n / 256)

/-- The 8-byte little-endian encoding of a u64, as written by
writeBigUInt64LE in the client. -/
def u64le (n : Nat) : Bytes := leBytes 8 n

/-- Value of a little-endian byte list. -/
def leVal : Bytes → Nat
  | [] => 0
  | b :: rest => b + 256 * leVal rest

/-- Little-endian u64 read at a byte offset, as performed by
readBigUInt64LE and DataView.getBigUint64 with littleEndian set. -/
def readU64 (b : Bytes) (off : Nat) : Nat := leVal ((b.drop off).take 8)

/-- Signed interpretation of a u64 read, as performed by
DataView.getBigInt64 with littleEndian set. -/
def readI64 (b : Bytes) (off : Nat) : ℤ :=
  let v := readU64 b off
  if v < 2 ^ 63 then (v : ℤ) else (v : ℤ) - 2 ^ 64

theorem leBytes_length (k n : Nat) : (leBytes k n).length = k := by
  induction k generalizing n with
  | zero => rfl
  | succ k ih => simp [leBytes, ih]

theorem u64le_length (n : Nat) : (u64le n).length = 8 := leBytes_length 8 n

theorem leVal_leBytes (k n : Nat) : leVal (leBytes k n) = n % 256 ^ k := by
  induction k generalizing n with
  | zero => simp [leBytes, leVal, Nat.mod_one]
  | succ k ih =>
      have h256 : (256 : Nat) ^ (k + 1) = 256 * 256 ^ k := by ring
      rw [leBytes, leVal, ih, h256, Nat.mod_mul]

/-- Reading a u64 field back from the position where it was written
recovers its value modulo 2^64. -/
theorem readU64_append (pre : Bytes) (n : Nat) (post : Bytes) :
    readU64 (pre ++ (u64le n ++ post)) pre.length = n % 2 ^ 64 := by
  have hdrop : (pre ++ (u64le n ++ post)).drop pre.length = u64le n ++ post :=
    List.drop_left pre (u64le n ++ post)
  have htake : (u64le n ++ post).take 8 = u64le n := by
    have := List.take_left (u64le n) post
    rwa [u64le_length] at this
  have h2 : (256 : Nat) ^ 8 = 2 ^ 64 := by norm_num
  rw [readU64, hdrop, htake, u64le, leVal_leBytes, h2]

/-- Program-derived address, identified by its derivation inputs: the
deriving program and the concatenated seed bytes.  The canonical ledger
derivation (findProgramAddressSync) is deterministic and collision-free on
these inputs; the hash step itself is outside the embedding, so an address
is modelled as the pair it is derived from. -/
structure Address where
  program : String
  seeds : Bytes
deriving DecidableEq, Repr

/-- Seed concatenation of findProgramAddressSync: the seed buffers are
joined in order. -/
def findProgAddr (seeds : List Bytes) (program : String) : Address :=
  ⟨program, seeds.flatten⟩

/-- The paper trading program id (PAPER_TRADING_PROGRAM_ID). -/
def paperProgramId : String := "b6NjCktqaB4KqTvsNmYTJ9KBfwMJ7Sh4hMJ2Xz26YR3"

/-- The trading-account component id (COMPONENT_IDS.TRADING_ACCOUNT). -/
def tradingAccountComponentId : String := "3PDo9AKeLhU6hcUC7gft3PKQuotH4624mcevqdSiyTPS"

/-- The position component id (COMPONENT_IDS.POSITION). -/
def positionComponentId : String := "9ACLRxNoDHXpHugLUmDtBGTQ6Q5vwnD4wUVSaWaNaVbv"

/-- getUserAccountPDA: derive the per-pair user trading account address
from the literal seed, the owner key bytes, and the one-byte pair index. -/
def userAccountPDA (owner : Bytes) (pairIndex : Nat) : Address :=
  findProgAddr [strBytes "user", owner, [pairIndex]] paperProgramId

/-- TRADING_PAIRS lookup used by openPosition and executeSpotTrade. -/
def tradingPairIndex : String → Option Nat
  | "SOL" => some 0
  | "BTC" => some 1
  | "ETH" => some 2
  | "AVAX" => some 3
  | "LINK" => some 4
  | _ => none

/-- Modelled from the spec: the 8-byte method selector is computed in the
client as the first 8 bytes of a cryptographic digest of the method-name
string.  The digest itself (SHA-256, external to the repository) is outside
the embedding; the selector is modelled as a fixed 8-byte tag determined by
the method name.  No claim depends on the tag values, only on the 8-byte
width and position. -/
def selector (methodName : String) : Bytes :=
  (strBytes methodName ++ leBytes 8 0).take 8

theorem selector_length (m : String) : (selector m).length = 8 := by
  simp only [selector, List.length_take, List.length_append, leBytes_length]
  omega

/-- Direction of a leveraged position (PositionDirection). -/
inductive Direction
  | long
  | short
deriving DecidableEq, Repr

/-- Method name chosen by the open-position paths for each direction. -/
def openMethodName : Direction → String
  | Direction.long => "global:open_long_position"
  | Direction.short => "global:open_short_position"

/-- Argument record of the open-position instruction. -/
structure OpenArgs where
  amountTokenOut : Nat
  priceScaled : Nat
  takeProfitScaled : Nat
  stopLossScaled : Nat
deriving DecidableEq, Repr

/-- Instruction-data layout built by the open-position paths: an 8-byte
selector followed by four u64 fields written little-endian at offsets
8, 16, 24 and 32 of a 40-byte buffer. -/
def encodeOpenArgs (d : Direction) (a : OpenArgs) : Bytes :=
  selector (openMethodName d) ++ u64le a.amountTokenOut ++ u64le a.priceScaled ++
    u64le a.takeProfitScaled ++ u64le a.stopLossScaled

/-- Modelled from the spec: the consuming program reads each instruction
field at its fixed byte offset with little-endian u64 reads, skipping the
8-byte selector; this is the decoder the round-trip law is stated
against (the on-ledger program is outside the repository). -/
def decodeOpenArgs (b : Bytes) : OpenArgs :=
  ⟨readU64 b 8, readU64 b 16, readU64 b 24, readU64 b 32⟩

/-- Spot-trade instruction data (executeSpotTrade): selector, then the
amount and price u64 fields at offsets 8 and 16 of a 24-byte buffer. -/
def encodeSpotArgs (methodName : String) (amountTokenOut priceScaled : Nat) : Bytes :=
  selector methodName ++ u64le amountTokenOut ++ u64le priceScaled

/-- Raw u64 fields of the user trading account record. -/
structure UserAccountRaw where
  tokenInRaw : Nat
  tokenOutRaw : Nat
  totalPositions : Nat
deriving DecidableEq, Repr

/-- Field reads of getUserAccountData: skip the 8-byte record tag, the
32-byte owner and the 1-byte pair index, then read the three u64 fields
little-endian at offsets 41, 49 and 57. -/
def parseUserAccountRaw (data : Bytes) : UserAccountRaw :=
  ⟨readU64 data 41, readU64 data 49, readU64 data 57⟩

/-- Modelled from the spec: the user-account record as laid out by the
on-ledger program (outside the repository): an 8-byte tag, the 32-byte
owner, the 1-byte pair index, the three u64 fields little-endian, then the
remaining bytes of the 80-byte record. -/
def encodeUserAccountRaw (tag owner : Bytes) (pairIndex : Nat) (r : UserAccountRaw)
    (rest : Bytes) : Bytes :=
  tag ++ owner ++ [pairIndex] ++ u64le r.tokenInRaw ++ u64le r.tokenOutRaw ++
    u64le r.totalPositions ++ rest

/-- User account data in readable units, as returned by getUserAccountData:
the token-in balance uses 6 decimals and the token-out balance 9. -/
structure UserAccountData where
  tokenInBalance : ℚ
  tokenOutBalance : ℚ
  totalPositions : Nat
deriving DecidableEq, Repr

/-- Scale conversion performed by getUserAccountData on the raw fields. -/
def toUserAccountData (r : UserAccountRaw) : UserAccountData :=
  ⟨(r.tokenInRaw : ℚ) / 1000000, (r.tokenOutRaw : ℚ) / 1000000000, r.totalPositions⟩

/-- Math.floor on an exact rational. -/
def mfloor (q : ℚ) : ℤ := ⌊q⌋

/-- Scaling of the optional take-profit and stop-loss prices: a missing (or
zero, which JavaScript truthiness treats the same) value scales to 0. -/
def optScaled (p : Option ℚ) : ℤ :=
  match p with
  | none => 0
  | some v => mfloor (v * 1000000)

/-- Result of getAccountInfo: account bytes, account absent (null), or the
call throwing a network error. -/
inductive Fetch
  | found (data : Bytes)
  | missing
  | netErr
deriving DecidableEq, Repr

/-- Result of sendRawTransaction: a signature, a SendTransactionError whose
message reports the transaction as already processed, or any other
rejection/throw. -/
inductive SendRes
  | okSig (sig : String)
  | alreadyProcessed
  | rejected
deriving DecidableEq, Repr

/-- Result of getSignatureStatus: a non-null confirmationStatus, a response
without one, or the query itself throwing. -/
inductive SigStatusRes
  | confirmedStatus
  | noStatus
  | queryFailed
deriving DecidableEq, Repr

/-- Result of getProgramAccounts: the matching (pubkey, data) pairs, or the
call throwing. -/
inductive ScanRes
  | okList (accounts : List (String × Bytes))
  | failed

/-- Pure network oracle: answers for account reads, the i-th submission of
an operation, the signature of the i-th signed transaction, signature-status
queries, and program-account scans keyed by program id. -/
structure Env where
  accountInfo : Address → Fetch
  send : Nat → SendRes
  txSig : Nat → Option String
  sigStatus : String → SigStatusRes
  scan : String → ScanRes

/-- Which execution path performed a submission. -/
inductive PathTag
  | rollup
  | base
deriving DecidableEq, Repr

/-- Artifacts of the Building step of an open-position attempt: the encoded
instruction data, the derived position address, and the totalPositions
counter value the address was derived from. -/
structure BuiltOpen where
  data : Bytes
  positionAddr : Address
  totalPositions : Nat
deriving DecidableEq, Repr

/-- A network submission performed by an operation. -/
inductive SubEvent
  | openSub (tag : PathTag) (b : BuiltOpen)
  | spotSub (data : Bytes)
deriving DecidableEq, Repr

/-- Typed surface of the errors thrown by the client operations. -/
inductive OpErr
  | walletMissing
  | unknownPair (sym : String)
  | acctNotFound (pairIndex : Nat)
  | notInit (pairIndex : Nat)
  | insufficientBalance (required available : ℚ)
  | decodeShort
  | netFail
  | sendRejected
  | alreadyProcessed
deriving DecidableEq, Repr

/-- getUserAccountData: derive the per-pair account address, read it, and
decode the balances; returns none when no wallet is set, when the account
does not exist, and also when the read or the decode throws (the catch
block returns null). -/
def getUserAccountData (env : Env) (wallet : Option Bytes) (pairIndex : Nat) :
    Option UserAccountData :=
  match wallet with
  | none => none
  | some w =>
    match env.accountInfo (userAccountPDA w pairIndex) with
    | Fetch.missing => none
    | Fetch.netErr => none
    | Fetch.found data =>
      if 65 ≤ data.length then some (toUserAccountData (parseUserAccountRaw data))
      else none

/-- Building step shared by both open-position paths: encode the
instruction data, read the totalPositions counter little-endian at offset
8+32+1+8+8 of the freshly fetched account bytes, and derive the position
address from the literal seed, the owner key, the pair index byte and the
little-endian counter bytes. -/
def buildOpen (wallet : Bytes) (pairIndex : Nat) (direction : Direction)
    (amountTokenOut priceScaled tpScaled slScaled : ℤ) (acctBytes : Bytes) : BuiltOpen :=
  let t := readU64 acctBytes 57
  { data := encodeOpenArgs direction
      ⟨amountTokenOut.toNat, priceScaled.toNat, tpScaled.toNat, slScaled.toNat⟩
    positionAddr :=
      findProgAddr [strBytes "position", wallet, [pairIndex], u64le t] paperProgramId
    totalPositions := t }

/-- Submission and already-processed recovery, identical in both
open-position paths: on an already-processed rejection, take the signature
of the signed transaction and query its status; a present confirmation
status is returned as success, otherwise (no signature, no status, or the
query throwing) the distinct already-processed error is raised.  Exactly
one submission is performed. -/
def sendAndRecover (env : Env) (i : Nat) (tag : PathTag) (b : BuiltOpen) :
    Except OpErr String × List SubEvent :=
  match env.send i with
  | SendRes.okSig sig => (Except.ok sig, [SubEvent.openSub tag b])
  | SendRes.rejected => (Except.error OpErr.sendRejected, [SubEvent.openSub tag b])
  | SendRes.alreadyProcessed =>
    match env.txSig i with
    | none => (Except.error OpErr.alreadyProcessed, [SubEvent.openSub tag b])
    | some s =>
      match env.sigStatus s with
      | SigStatusRes.confirmedStatus => (Except.ok s, [SubEvent.openSub tag b])
      | SigStatusRes.noStatus => (Except.error OpErr.alreadyProcessed, [SubEvent.openSub tag b])
      | SigStatusRes.queryFailed => (Except.error OpErr.alreadyProcessed, [SubEvent.openSub tag b])

/-- openMagicBlockPosition, the rollup path: scale the inputs, read the
account data and check the margin against the token-in balance with the
0.01 tolerance, re-read the raw account, build the instruction and
position address, then submit with already-processed recovery.  `i` is the
submission slot this attempt uses. -/
def openMagicBlockPosition (env : Env) (i : Nat) (wallet : Bytes) (pairIndex : Nat)
    (direction : Direction) (currentPrice size : ℚ) (takeProfit stopLoss : Option ℚ) :
    Except OpErr String × List SubEvent :=
  let priceScaled := mfloor (currentPrice * 1000000)
  let amountTokenOut := mfloor (size / currentPrice * 1000000000)
  let requiredTokenIn := mfloor (size * 1000000)
  match getUserAccountData env (some wallet) pairIndex with
  | none => (Except.error (OpErr.acctNotFound pairIndex), [])
  | some acct =>
    let requiredBalance : ℚ := (requiredTokenIn : ℚ) / 1000000
    if acct.tokenInBalance < requiredBalance - 1 / 100 then
      (Except.error (OpErr.insufficientBalance requiredBalance acct.tokenInBalance), [])
    else
      match env.accountInfo (userAccountPDA wallet pairIndex) with
      | Fetch.missing => (Except.error (OpErr.notInit pairIndex), [])
      | Fetch.netErr => (Except.error OpErr.netFail, [])
      | Fetch.found data =>
        if 65 ≤ data.length then
          sendAndRecover env i PathTag.rollup
            (buildOpen wallet pairIndex direction amountTokenOut priceScaled
              (optScaled takeProfit) (optScaled stopLoss) data)
        else (Except.error OpErr.decodeShort, [])

/-- openDirectPosition, the base-chain path: read the raw account first,
scale the inputs, check the balance without tolerance, build and submit
with the same already-processed recovery. -/
def openDirectPosition (env : Env) (i : Nat) (wallet : Bytes) (pairIndex : Nat)
    (direction : Direction) (currentPrice size : ℚ) (takeProfit stopLoss : Option ℚ) :
    Except OpErr String × List SubEvent :=
  match env.accountInfo (userAccountPDA wallet pairIndex) with
  | Fetch.missing => (Except.error (OpErr.notInit pairIndex), [])
  | Fetch.netErr => (Except.error OpErr.netFail, [])
  | Fetch.found data =>
    let priceScaled := mfloor (currentPrice * 1000000)
    let amountTokenOut := mfloor (size / currentPrice * 1000000000)
    let requiredTokenIn := mfloor (size * 1000000)
    match getUserAccountData env (some wallet) pairIndex with
    | none => (Except.error (OpErr.acctNotFound pairIndex), [])
    | some acct =>
      let requiredBalance : ℚ := (requiredTokenIn : ℚ) / 1000000
      if acct.tokenInBalance < requiredBalance then
        (Except.error (OpErr.insufficientBalance requiredBalance acct.tokenInBalance), [])
      else
        if 65 ≤ data.length then
          sendAndRecover env i PathTag.base
            (buildOpen wallet pairIndex direction amountTokenOut priceScaled
              (optScaled takeProfit) (optScaled stopLoss) data)
        else (Except.error OpErr.decodeShort, [])

/-- openPosition: resolve the pair, attempt the rollup path, and on any
error of that attempt fall back to one base-chain attempt, surfacing the
outcome of the fallback. -/
def openPosition (env : Env) (wallet : Option Bytes) (pairSymbol : String)
    (direction : Direction) (currentPrice size : ℚ) (takeProfit stopLoss : Option ℚ) :
    Except OpErr String × List SubEvent :=
  match wallet with
  | none => (Except.error OpErr.walletMissing, [])
  | some w =>
    match tradingPairIndex pairSymbol with
    | none => (Except.error (OpErr.unknownPair pairSymbol), [])
    | some pairIndex =>
      match openMagicBlockPosition env 0 w pairIndex direction currentPrice size
          takeProfit stopLoss with
      | (Except.ok sig, log) => (Except.ok sig, log)
      | (Except.error _, log) =>
        let d := openDirectPosition env 1 w pairIndex direction currentPrice size
          takeProfit stopLoss
        (d.1, log ++ d.2)

/-- Spot trade action selector. -/
inductive SpotAction
  | buy
  | sell
deriving DecidableEq, Repr

/-- Method name of a spot trade. -/
def spotMethodName : SpotAction → String
  | SpotAction.buy => "global:buy"
  | SpotAction.sell => "global:sell"

/-- executeSpotTrade: resolve the pair, require the raw account to exist,
read the balances, check affordability (token-in for a buy, token-out for a
sell, both without tolerance and boundary inclusive), then submit; an
already-processed rejection is treated as success, returning the held
signature when one is available and the placeholder string otherwise. -/
def executeSpotTrade (env : Env) (wallet : Option Bytes) (pairSymbol : String)
    (action : SpotAction) (currentPrice sizeInUSDT : ℚ) :
    Except OpErr String × List SubEvent :=
  match wallet with
  | none => (Except.error OpErr.walletMissing, [])
  | some w =>
    match tradingPairIndex pairSymbol with
    | none => (Except.error (OpErr.unknownPair pairSymbol), [])
    | some pairIndex =>
      match env.accountInfo (userAccountPDA w pairIndex) with
      | Fetch.missing => (Except.error (OpErr.notInit pairIndex), [])
      | Fetch.netErr => (Except.error OpErr.netFail, [])
      | Fetch.found _ =>
        let amountTokenOut := mfloor (sizeInUSDT / currentPrice * 1000000000)
        let priceScaled := mfloor (currentPrice * 1000000)
        match getUserAccountData env (some w) pairIndex with
        | none => (Except.error (OpErr.acctNotFound pairIndex), [])
        | some acct =>
          let checkFail : Option OpErr :=
            match action with
            | SpotAction.buy =>
              if acct.tokenInBalance < sizeInUSDT then
                some (OpErr.insufficientBalance sizeInUSDT acct.tokenInBalance)
              else none
            | SpotAction.sell =>
              let requiredTokenAmount : ℚ := (amountTokenOut : ℚ) / 1000000000
              if acct.tokenOutBalance < requiredTokenAmount then
                some (OpErr.insufficientBalance requiredTokenAmount acct.tokenOutBalance)
              else none
          match checkFail with
          | some e => (Except.error e, [])
          | none =>
            let dat := encodeSpotArgs (spotMethodName action) amountTokenOut.toNat
              priceScaled.toNat
            match env.send 0 with
            | SendRes.okSig sig => (Except.ok sig, [SubEvent.spotSub dat])
            | SendRes.rejected => (Except.error OpErr.sendRejected, [SubEvent.spotSub dat])
            | SendRes.alreadyProcessed =>
              match env.txSig 0 with
              | some s => (Except.ok s, [SubEvent.spotSub dat])
              | none => (Except.ok "spot_trade_success", [SubEvent.spotSub dat])

/-- Byte-slice comparison used for the owner check and as the memcmp
filter the scans request from the network. -/
def sliceEq (data : Bytes) (off : Nat) (pat : Bytes) : Bool :=
  decide (((data.drop off).take pat.length) = pat)

/-- Decoded direct-contract position record, per the PositionAccount
layout read by fetchPositions: tag 8, owner 32, pair index 1, position id
8, position type 1, amount 8, entry price 8, take profit 8, stop loss 8,
status 1, opened at 8, closed at 8. -/
structure PositionRec where
  pubkey : String
  pairIndex : Nat
  positionId : Nat
  positionType : Nat
  amountTokenOut : ℚ
  entryPrice : ℚ
  takeProfitPrice : Option ℚ
  stopLossPrice : Option ℚ
  statusByte : Nat
  openedAt : ℤ
deriving DecidableEq, Repr

/-- Field reads of the direct-position parse loop of fetchPositions. -/
def parseDirectPosition (pubkey : String) (data : Bytes) : PositionRec :=
  let tp := readU64 data 66
  let sl := readU64 data 74
  { pubkey := pubkey
    pairIndex := data.getD 40 0
    positionId := readU64 data 41
    positionType := data.getD 49 0
    amountTokenOut := (readU64 data 50 : ℚ) / 1000000000
    entryPrice := (readU64 data 58 : ℚ) / 1000000
    takeProfitPrice := if 0 < tp then some ((tp : ℚ) / 1000000) else none
    stopLossPrice := if 0 < sl then some ((sl : ℚ) / 1000000) else none
    statusByte := data.getD 82 0
    openedAt := readI64 data 83 }

/-- An entry of the fetchPositions result: a raw rollup-component entry or
a decoded direct-contract position. -/
inductive PosEntry
  | mb (pubkey : String) (raw : Bytes)
  | direct (rec : PositionRec)
deriving DecidableEq, Repr

/-- fetchPositions: the rollup-component scan keeps entries matching the
entity at offset 8 and pushes them raw; the direct-contract scan keeps
accounts of the 104-byte position size whose owner field matches the
wallet, decodes each, and pushes only records whose status byte is 0
(Active).  A failing scan is caught and contributes nothing. -/
def fetchPositions (env : Env) (wallet : Option Bytes) (entityPda : Option Bytes) :
    List PosEntry :=
  match wallet with
  | none => []
  | some w =>
    let mbPart : List PosEntry :=
      match entityPda with
      | none => []
      | some e =>
        match env.scan positionComponentId with
        | ScanRes.failed => []
        | ScanRes.okList accounts =>
          (accounts.filter (fun a => sliceEq a.2 8 e)).map (fun a => PosEntry.mb a.1 a.2)
    let directPart : List PosEntry :=
      match env.scan paperProgramId with
      | ScanRes.failed => []
      | ScanRes.okList allAccounts =>
        let direct := allAccounts.filter
          (fun a => a.2.length == 104 && sliceEq a.2 8 w)
        direct.filterMap (fun a =>
          let r := parseDirectPosition a.1 a.2
          if r.statusByte = 0 then some (PosEntry.direct r) else none)
    mbPart ++ directPart

/-- Leaderboard entry assembled by fetchLeaderboard (pnl, trades and
balance are currently the placeholder values the source pushes). -/
structure LeaderEntry where
  address : String
  pnl : ℚ
  trades : Nat
  balance : ℚ
  rank : Nat
deriving DecidableEq, Repr

/-- fetchLeaderboard: scan the trading-account component filtered on the
competition entity at offset 8, push an entry per account, sort by pnl
descending and attach ranks; with no competition entity set, or when the
scan throws, the empty list is returned. -/
def fetchLeaderboard (env : Env) (competitionEntity : Option Bytes) : List LeaderEntry :=
  match competitionEntity with
  | none => []
  | some ce =>
    match env.scan tradingAccountComponentId with
    | ScanRes.failed => []
    | ScanRes.okList accounts =>
      let entries := (accounts.filter (fun a => sliceEq a.2 8 ce)).map
        (fun a => LeaderEntry.mk a.1 0 0 10000 0)
      let sorted := entries.mergeSort (fun a b => decide (b.pnl ≤ a.pnl))
      (sorted.enum.map (fun p => { p.2 with rank := p.1 + 1 }))

theorem readU64_shift (pre rest : Bytes) (m k : Nat) (h : pre.length = m) :
    readU64 (pre ++ rest) (m + k) = readU64 rest k := by
  subst h
  rw [readU64, readU64, List.drop_append]

/-- Reading a u64 at the head of a buffer recovers the written value
modulo 2^64. -/
theorem readU64_here (n : Nat) (post : Bytes) :
    readU64 (u64le n ++ post) 0 = n % 2 ^ 64 := by
  have htake : (u64le n ++ post).take 8 = u64le n := by
    have := List.take_left (u64le n) post
    rwa [u64le_length] at this
  have h2 : (256 : Nat) ^ 8 = 2 ^ 64 := by norm_num
  rw [readU64, List.drop_zero, htake, u64le, leVal_leBytes, h2]

/-- Field read-back for the open-position instruction layout. -/
theorem decodeOpenArgs_encodeOpenArgs (d : Direction) (a : OpenArgs)
    (h1 : a.amountTokenOut < 2 ^ 64) (h2 : a.priceScaled < 2 ^ 64)
    (h3 : a.takeProfitScaled < 2 ^ 64) (h4 : a.stopLossScaled < 2 ^ 64) :
    decodeOpenArgs (encodeOpenArgs d a) = a := by
  obtain ⟨a1, a2, a3, a4⟩ := a
  simp only at h1 h2 h3 h4
  have hs : (selector (openMethodName d)).length = 8 := selector_length _
  have e : encodeOpenArgs d ⟨a1, a2, a3, a4⟩ =
      selector (openMethodName d) ++ (u64le a1 ++ (u64le a2 ++ (u64le a3 ++ u64le a4))) := by
    simp [encodeOpenArgs, List.append_assoc]
  have r8 : readU64 (encodeOpenArgs d ⟨a1, a2, a3, a4⟩) 8 = a1 := by
    rw [e, show (8 : Nat) = 8 + 0 from rfl, readU64_shift _ _ 8 0 hs,
      readU64_here, Nat.mod_eq_of_lt h1]
  have r16 : readU64 (encodeOpenArgs d ⟨a1, a2, a3, a4⟩) 16 = a2 := by
    rw [e, show (16 : Nat) = 8 + 8 from rfl, readU64_shift _ _ 8 8 hs,
      show (8 : Nat) = 8 + 0 from rfl, readU64_shift _ _ 8 0 (u64le_length a1),
      readU64_here, Nat.mod_eq_of_lt h2]
  have r24 : readU64 (encodeOpenArgs d ⟨a1, a2, a3, a4⟩) 24 = a3 := by
    rw [e, show (24 : Nat) = 8 + 16 from rfl, readU64_shift _ _ 8 16 hs,
      show (16 : Nat) = 8 + 8 from rfl, readU64_shift _ _ 8 8 (u64le_length a1),
      show (8 : Nat) = 8 + 0 from rfl, readU64_shift _ _ 8 0 (u64le_length a2),
      readU64_here, Nat.mod_eq_of_lt h3]
  have r32 : readU64 (encodeOpenArgs d ⟨a1, a2, a3, a4⟩) 32 = a4 := by
    rw [e, show (32 : Nat) = 8 + 24 from rfl, readU64_shift _ _ 8 24 hs,
      show (24 : Nat) = 8 + 16 from rfl, readU64_shift _ _ 8 16 (u64le_length a1),
      show (16 : Nat) = 8 + 8 from rfl, readU64_shift _ _ 8 8 (u64le_length a2),
      show (8 : Nat) = 8 + 0 from rfl, readU64_shift _ _ 8 0 (u64le_length a3)]
    have h0 : readU64 (u64le a4) 0 = a4 % 2 ^ 64 := by
      have := readU64_here a4 []
      rwa [List.append_nil] at this
    rw [h0, Nat.mod_eq_of_lt h4]
  rw [decodeOpenArgs, r8, r16, r24, r32]

/-- Field read-back for the user trading account record layout. -/
theorem parseUserAccountRaw_encodeUserAccountRaw (tag owner : Bytes) (pi : Nat)
    (r : UserAccountRaw) (rest : Bytes) (htag : tag.length = 8) (howner : owner.length = 32)
    (h1 : r.tokenInRaw < 2 ^ 64) (h2 : r.tokenOutRaw < 2 ^ 64)
    (h3 : r.totalPositions < 2 ^ 64) :
    parseUserAccountRaw (encodeUserAccountRaw tag owner pi r rest) = r := by
  obtain ⟨v1, v2, v3⟩ := r
  simp only at h1 h2 h3
  have hpre : (tag ++ owner ++ [pi]).length = 41 := by
    simp [List.length_append, htag, howner]
  have e : encodeUserAccountRaw tag owner pi ⟨v1, v2, v3⟩ rest =
      (tag ++ owner ++ [pi]) ++ (u64le v1 ++ (u64le v2 ++ (u64le v3 ++ rest))) := by
    simp [encodeUserAccountRaw, List.append_assoc]
  have r41 : readU64 (encodeUserAccountRaw tag owner pi ⟨v1, v2, v3⟩ rest) 41 = v1 := by
    rw [e, show (41 : Nat) = 41 + 0 from rfl, readU64_shift _ _ 41 0 hpre,
      readU64_here, Nat.mod_eq_of_lt h1]
  have r49 : readU64 (encodeUserAccountRaw tag owner pi ⟨v1, v2, v3⟩ rest) 49 = v2 := by
    rw [e, show (49 : Nat) = 41 + 8 from rfl, readU64_shift _ _ 41 8 hpre,
      show (8 : Nat) = 8 + 0 from rfl, readU64_shift _ _ 8 0 (u64le_length v1),
      readU64_here, Nat.mod_eq_of_lt h2]
  have r57 : readU64 (encodeUserAccountRaw tag owner pi ⟨v1, v2, v3⟩ rest) 57 = v3 := by
    rw [e, show (57 : Nat) = 41 + 16 from rfl, readU64_shift _ _ 41 16 hpre,
      show (16 : Nat) = 8 + 8 from rfl, readU64_shift _ _ 8 8 (u64le_length v1),
      show (8 : Nat) = 8 + 0 from rfl, readU64_shift _ _ 8 0 (u64le_length v2),
      readU64_here, Nat.mod_eq_of_lt h3]
  rw [parseUserAccountRaw, r41, r49, r57]

/-- C6: for every structurally valid instruction-argument record and every
structurally valid user-account record (all u64 fields below 2^64, tag and
owner of their fixed widths), decoding the bytes produced by encoding
reproduces the original field values exactly, including the boundary
values 0 and the maximum u64. -/
theorem c6_codec_roundtrip :
    (∀ (d : Direction) (a : OpenArgs),
      a.amountTokenOut < 2 ^ 64 → a.priceScaled < 2 ^ 64 →
      a.takeProfitScaled < 2 ^ 64 → a.stopLossScaled < 2 ^ 64 →
      decodeOpenArgs (encodeOpenArgs d a) = a) ∧
    (∀ (tag owner : Bytes) (pi : Nat) (r : UserAccountRaw) (rest : Bytes),
      tag.length = 8 → owner.length = 32 →
      r.tokenInRaw < 2 ^ 64 → r.tokenOutRaw < 2 ^ 64 → r.totalPositions < 2 ^ 64 →
      parseUserAccountRaw (encodeUserAccountRaw tag owner pi r rest) = r) :=
  ⟨fun d a h1 h2 h3 h4 => decodeOpenArgs_encodeOpenArgs d a h1 h2 h3 h4,
   fun tag owner pi r rest htag howner h1 h2 h3 =>
     parseUserAccountRaw_encodeUserAccountRaw tag owner pi r rest htag howner h1 h2 h3⟩

/-- Witness for C6 at the boundary values 0 and the maximum u64. -/
theorem c6_codec_roundtrip_witness :
    decodeOpenArgs (encodeOpenArgs Direction.long ⟨0, 2 ^ 64 - 1, 0, 2 ^ 64 - 1⟩) =
      ⟨0, 2 ^ 64 - 1, 0, 2 ^ 64 - 1⟩ ∧
    parseUserAccountRaw
      (encodeUserAccountRaw (List.replicate 8 0) (List.replicate 32 0) 0
        ⟨2 ^ 64 - 1, 0, 2 ^ 64 - 1⟩ []) = ⟨2 ^ 64 - 1, 0, 2 ^ 64 - 1⟩ :=
  ⟨c6_codec_roundtrip.1 Direction.long ⟨0, 2 ^ 64 - 1, 0, 2 ^ 64 - 1⟩
      (by norm_num) (by norm_num) (by norm_num) (by norm_num),
   c6_codec_roundtrip.2 (List.replicate 8 0) (List.replicate 32 0) 0
      ⟨2 ^ 64 - 1, 0, 2 ^ 64 - 1⟩ [] (by simp) (by simp)
      (by norm_num) (by norm_num) (by norm_num)⟩

/-- C9: address derivation is a pure deterministic function of the owner
key and pair index — identical inputs give identical addresses and, for
well-formed 32-byte owner keys, distinct inputs give distinct addresses;
no network state appears among the inputs. -/
theorem c9_pda_deterministic_injective (o1 o2 : Bytes) (p1 p2 : Nat)
    (h1 : o1.length = 32) (h2 : o2.length = 32) :
    userAccountPDA o1 p1 = userAccountPDA o2 p2 ↔ o1 = o2 ∧ p1 = p2 := by
  constructor
  · intro h
    simp only [userAccountPDA, findProgAddr, Address.mk.injEq, List.flatten,
      List.append_nil, true_and] at h
    have h' : o1 ++ [p1] = o2 ++ [p2] := List.append_cancel_left h
    have hlen : o1.length = o2.length := h1.trans h2.symm
    obtain ⟨ho, hp⟩ := List.append_inj h' hlen
    exact ⟨ho, by injection hp⟩
  · rintro ⟨rfl, rfl⟩
    rfl

/-- Witness for C9: a concrete pair of equal calls and a concrete pair of
distinct inputs with distinct derived addresses. -/
theorem c9_pda_witness :
    userAccountPDA (List.replicate 32 1) 0 = userAccountPDA (List.replicate 32 1) 0 ∧
    userAccountPDA (List.replicate 32 1) 0 ≠ userAccountPDA (List.replicate 32 1) 3 ∧
    userAccountPDA (List.replicate 32 1) 0 ≠ userAccountPDA (List.replicate 32 2) 0 := by
  refine ⟨(c9_pda_deterministic_injective _ _ 0 0 (by simp) (by simp)).mpr ⟨rfl, rfl⟩, ?_, ?_⟩
  · intro h
    have := (c9_pda_deterministic_injective _ _ 0 3 (by simp) (by simp)).mp h
    exact absurd this.2 (by decide)
  · intro h
    have := (c9_pda_deterministic_injective _ _ 0 0 (by simp) (by simp)).mp h
    exact absurd this.1 (by decide)

/-- Predicate used to state C10: a direct-contract entry must carry a
status byte of 0 (Active); raw rollup-component entries are unconstrained
by the claim. -/
def directEntryActive : PosEntry → Bool
  | PosEntry.direct r => r.statusByte == 0
  | PosEntry.mb _ _ => true

/-- C10: every direct-contract entry returned by fetchPositions has status
byte 0 — records decoded with a nonzero (Closed) status byte are excluded
by the scan, in addition to the size and owner filters, so a closed
position never appears in the result. -/
theorem c10_fetchPositions_active (env : Env) (wallet entity : Option Bytes) :
    (fetchPositions env wallet entity).all directEntryActive = true := by
  cases wallet with
  | none => rfl
  | some w =>
    simp only [fetchPositions, List.all_append, Bool.and_eq_true]
    constructor
    · cases entity with
      | none => rfl
      | some e =>
        cases hscan : env.scan positionComponentId with
        | failed => rfl
        | okList accounts =>
          rw [List.all_eq_true]
          intro x hx
          simp only [List.mem_map] at hx
          obtain ⟨a, _, rfl⟩ := hx
          rfl
    · cases hscan : env.scan paperProgramId with
      | failed => rfl
      | okList allAccounts =>
        rw [List.all_eq_true]
        intro x hx
        simp only [List.mem_filterMap] at hx
        obtain ⟨a, _, hsome⟩ := hx
        by_cases hst : (parseDirectPosition a.1 a.2).statusByte = 0
        · rw [if_pos hst] at hsome
          obtain rfl : PosEntry.direct (parseDirectPosition a.1 a.2) = x :=
            Option.some.inj hsome
          simp [directEntryActive, hst]
        · rw [if_neg hst] at hsome
          cases hsome

/-- Test for a base-chain submission event. -/
def isBaseSub : SubEvent → Bool
  | SubEvent.openSub PathTag.base _ => true
  | _ => false

/-- Test for a rollup submission event. -/
def isRollupSub : SubEvent → Bool
  | SubEvent.openSub PathTag.rollup _ => true
  | _ => false

/-- The rollup path reaches its submission step: the account exists with a
decodable record and the token-in balance passes the margin check with the
0.01 tolerance. -/
def rollupReady (env : Env) (w : Bytes) (pi : Nat) (size : ℚ) (data : Bytes) : Prop :=
  env.accountInfo (userAccountPDA w pi) = Fetch.found data ∧ 65 ≤ data.length ∧
    ¬ (toUserAccountData (parseUserAccountRaw data)).tokenInBalance <
        ((mfloor (size * 1000000) : ℤ) : ℚ) / 1000000 - 1 / 100

/-- The base-chain path reaches its submission step: as for the rollup
path but with the tolerance-free balance check. -/
def directReady (env : Env) (w : Bytes) (pi : Nat) (size : ℚ) (data : Bytes) : Prop :=
  env.accountInfo (userAccountPDA w pi) = Fetch.found data ∧ 65 ≤ data.length ∧
    ¬ (toUserAccountData (parseUserAccountRaw data)).tokenInBalance <
        ((mfloor (size * 1000000) : ℤ) : ℚ) / 1000000

theorem openMagicBlockPosition_send (env : Env) (i : Nat) (w : Bytes) (pi : Nat)
    (d : Direction) (cp size : ℚ) (tp sl : Option ℚ) (data : Bytes)
    (h : rollupReady env w pi size data) :
    openMagicBlockPosition env i w pi d cp size tp sl =
      sendAndRecover env i PathTag.rollup
        (buildOpen w pi d (mfloor (size / cp * 1000000000)) (mfloor (cp * 1000000))
          (optScaled tp) (optScaled sl) data) := by
  obtain ⟨hai, hlen, hbal⟩ := h
  simp only [openMagicBlockPosition, getUserAccountData, hai, hlen, hbal, if_true, if_false]

theorem openDirectPosition_send (env : Env) (i : Nat) (w : Bytes) (pi : Nat)
    (d : Direction) (cp size : ℚ) (tp sl : Option ℚ) (data : Bytes)
    (h : directReady env w pi size data) :
    openDirectPosition env i w pi d cp size tp sl =
      sendAndRecover env i PathTag.base
        (buildOpen w pi d (mfloor (size / cp * 1000000000)) (mfloor (cp * 1000000))
          (optScaled tp) (optScaled sl) data) := by
  obtain ⟨hai, hlen, hbal⟩ := h
  simp only [openDirectPosition, getUserAccountData, hai, hlen, hbal, if_true, if_false]

theorem sendAndRecover_log (env : Env) (i : Nat) (tag : PathTag) (b : BuiltOpen) :
    (sendAndRecover env i tag b).2 = [SubEvent.openSub tag b] := by
  cases hs : env.send i with
  | okSig s => simp [sendAndRecover, hs]
  | rejected => simp [sendAndRecover, hs]
  | alreadyProcessed =>
    cases ht : env.txSig i with
    | none => simp [sendAndRecover, hs, ht]
    | some s =>
      cases hg : env.sigStatus s with
      | confirmedStatus => simp [sendAndRecover, hs, ht, hg]
      | noStatus => simp [sendAndRecover, hs, ht, hg]
      | queryFailed => simp [sendAndRecover, hs, ht, hg]

theorem openMagicBlockPosition_log (env : Env) (i : Nat) (w : Bytes) (pi : Nat)
    (d : Direction) (cp size : ℚ) (tp sl : Option ℚ) :
    (openMagicBlockPosition env i w pi d cp size tp sl).2 = [] ∨
      ∃ b, (openMagicBlockPosition env i w pi d cp size tp sl).2 =
        [SubEvent.openSub PathTag.rollup b] := by
  simp only [openMagicBlockPosition]
  cases getUserAccountData env (some w) pi with
  | none => exact Or.inl rfl
  | some acct =>
    simp only []
    split
    · exact Or.inl rfl
    · cases env.accountInfo (userAccountPDA w pi) with
      | missing => exact Or.inl rfl
      | netErr => exact Or.inl rfl
      | found data =>
        simp only []
        split
        · exact Or.inr ⟨_, sendAndRecover_log env i PathTag.rollup _⟩
        · exact Or.inl rfl

theorem openDirectPosition_log (env : Env) (i : Nat) (w : Bytes) (pi : Nat)
    (d : Direction) (cp size : ℚ) (tp sl : Option ℚ) :
    (openDirectPosition env i w pi d cp size tp sl).2 = [] ∨
      ∃ b, (openDirectPosition env i w pi d cp size tp sl).2 =
        [SubEvent.openSub PathTag.base b] := by
  simp only [openDirectPosition]
  cases env.accountInfo (userAccountPDA w pi) with
  | missing => exact Or.inl rfl
  | netErr => exact Or.inl rfl
  | found data =>
    simp only []
    cases getUserAccountData env (some w) pi with
    | none => exact Or.inl rfl
    | some acct =>
      simp only []
      split
      · exact Or.inl rfl
      · split
        · exact Or.inr ⟨_, sendAndRecover_log env i PathTag.base _⟩
        · exact Or.inl rfl

theorem openPosition_ok (env : Env) (w : Bytes) (sym : String) (pi : Nat) (d : Direction)
    (cp size : ℚ) (tp sl : Option ℚ) (s : String)
    (hpair : tradingPairIndex sym = some pi)
    (h : (openMagicBlockPosition env 0 w pi d cp size tp sl).1 = Except.ok s) :
    openPosition env (some w) sym d cp size tp sl =
      openMagicBlockPosition env 0 w pi d cp size tp sl := by
  simp only [openPosition, hpair]
  rcases hm : openMagicBlockPosition env 0 w pi d cp size tp sl with ⟨r, log⟩
  rw [hm] at h
  simp only at h
  subst h
  rfl

theorem openPosition_fallback (env : Env) (w : Bytes) (sym : String) (pi : Nat)
    (d : Direction) (cp size : ℚ) (tp sl : Option ℚ) (e : OpErr)
    (hpair : tradingPairIndex sym = some pi)
    (h : (openMagicBlockPosition env 0 w pi d cp size tp sl).1 = Except.error e) :
    openPosition env (some w) sym d cp size tp sl =
      ((openDirectPosition env 1 w pi d cp size tp sl).1,
        (openMagicBlockPosition env 0 w pi d cp size tp sl).2 ++
          (openDirectPosition env 1 w pi d cp size tp sl).2) := by
  simp only [openPosition, hpair]
  rcases hm : openMagicBlockPosition env 0 w pi d cp size tp sl with ⟨r, log⟩
  rw [hm] at h
  simp only at h
  subst h
  rfl

/-- Concrete 32-byte owner key used by the witnesses. -/
def w1 : Bytes := List.replicate 32 1

/-- Concrete user-account record: token-in balance 1000.00 (raw 10^9 at 6
decimals), token-out balance 0, totalPositions 7, padded to the 80-byte
record size. -/
def acctRich : Bytes :=
  encodeUserAccountRaw (List.replicate 8 0) (List.replicate 32 0) 0
    ⟨1000000000, 0, 7⟩ (List.replicate 15 0)

theorem acctRich_parse : parseUserAccountRaw acctRich = ⟨1000000000, 0, 7⟩ :=
  parseUserAccountRaw_encodeUserAccountRaw _ _ _ _ _ (by simp) (by simp)
    (by norm_num) (by norm_num) (by norm_num)

theorem acctRich_length : 65 ≤ acctRich.length := by
  simp [acctRich, encodeUserAccountRaw, List.length_append, u64le_length]

/-- C2: when a position-opening submission is answered already-processed
and getSignatureStatus on the locally held signature reports a
confirmation status, both the rollup-path and the base-chain-path attempt
return that signature as a success result instead of raising an error. -/
theorem c2_already_processed_confirmed (env : Env) (w : Bytes) (pi : Nat) (d : Direction)
    (cp size : ℚ) (tp sl : Option ℚ) (i : Nat) (s : String) (data : Bytes)
    (hsend : env.send i = SendRes.alreadyProcessed)
    (htx : env.txSig i = some s)
    (hsig : env.sigStatus s = SigStatusRes.confirmedStatus) :
    (rollupReady env w pi size data →
      ∃ b, openMagicBlockPosition env i w pi d cp size tp sl =
        (Except.ok s, [SubEvent.openSub PathTag.rollup b])) ∧
    (directReady env w pi size data →
      ∃ b, openDirectPosition env i w pi d cp size tp sl =
        (Except.ok s, [SubEvent.openSub PathTag.base b])) := by
  constructor
  · intro hready
    rw [openMagicBlockPosition_send env i w pi d cp size tp sl data hready]
    exact ⟨buildOpen w pi d (mfloor (size / cp * 1000000000)) (mfloor (cp * 1000000))
      (optScaled tp) (optScaled sl) data, by simp [sendAndRecover, hsend, htx, hsig]⟩
  · intro hready
    rw [openDirectPosition_send env i w pi d cp size tp sl data hready]
    exact ⟨buildOpen w pi d (mfloor (size / cp * 1000000000)) (mfloor (cp * 1000000))
      (optScaled tp) (optScaled sl) data, by simp [sendAndRecover, hsend, htx, hsig]⟩

/-- Concrete environment for the C2 witness: account present with balance
1000.00, submission answered already-processed, signature available and
confirmed by the status query. -/
def envC2 : Env :=
  { accountInfo := fun _ => Fetch.found acctRich
    send := fun _ => SendRes.alreadyProcessed
    txSig := fun _ => some "sigA"
    sigStatus := fun _ => SigStatusRes.confirmedStatus
    scan := fun _ => ScanRes.failed }

/-- Witness for C2: both paths return the held signature as success. -/
theorem c2_witness :
    (∃ b, openMagicBlockPosition envC2 0 w1 0 Direction.long 100 50 none none =
      (Except.ok "sigA", [SubEvent.openSub PathTag.rollup b])) ∧
    (∃ b, openDirectPosition envC2 1 w1 0 Direction.long 100 50 none none =
      (Except.ok "sigA", [SubEvent.openSub PathTag.base b])) :=
  ⟨(c2_already_processed_confirmed envC2 w1 0 Direction.long 100 50 none none 0 "sigA"
      acctRich rfl rfl rfl).1
      ⟨rfl, acctRich_length, by rw [acctRich_parse]; norm_num [toUserAccountData, mfloor]⟩,
   (c2_already_processed_confirmed envC2 w1 0 Direction.long 100 50 none none 1 "sigA"
      acctRich rfl rfl rfl).2
      ⟨rfl, acctRich_length, by rw [acctRich_parse]; norm_num [toUserAccountData, mfloor]⟩⟩

/-- Concrete environment for C1 and C3: account present with balance
1000.00, every submission answered already-processed, a signature held,
and the status query returning no confirmation status. -/
def envC1 : Env :=
  { accountInfo := fun _ => Fetch.found acctRich
    send := fun _ => SendRes.alreadyProcessed
    txSig := fun _ => some "sigA"
    sigStatus := fun _ => SigStatusRes.noStatus
    scan := fun _ => ScanRes.failed }

theorem envC1_rollupReady : rollupReady envC1 w1 0 50 acctRich :=
  ⟨rfl, acctRich_length, by rw [acctRich_parse]; norm_num [toUserAccountData, mfloor]⟩

theorem envC1_directReady : directReady envC1 w1 0 50 acctRich :=
  ⟨rfl, acctRich_length, by rw [acctRich_parse]; norm_num [toUserAccountData, mfloor]⟩

theorem envC1_mb : openMagicBlockPosition envC1 0 w1 0 Direction.long 100 50 none none =
    (Except.error OpErr.alreadyProcessed,
      [SubEvent.openSub PathTag.rollup
        (buildOpen w1 0 Direction.long (mfloor ((50 : ℚ) / 100 * 1000000000))
          (mfloor ((100 : ℚ) * 1000000)) (optScaled none) (optScaled none) acctRich)]) := by
  rw [openMagicBlockPosition_send envC1 0 w1 0 Direction.long 100 50 none none acctRich
    envC1_rollupReady]
  simp [sendAndRecover, envC1]

theorem envC1_dir : openDirectPosition envC1 1 w1 0 Direction.long 100 50 none none =
    (Except.error OpErr.alreadyProcessed,
      [SubEvent.openSub PathTag.base
        (buildOpen w1 0 Direction.long (mfloor ((50 : ℚ) / 100 * 1000000000))
          (mfloor ((100 : ℚ) * 1000000)) (optScaled none) (optScaled none) acctRich)]) := by
  rw [openDirectPosition_send envC1 1 w1 0 Direction.long 100 50 none none acctRich
    envC1_directReady]
  simp [sendAndRecover, envC1]

/-- Counterexample to C1 as stated: in a run where the rollup submission
is answered already-processed and the status query returns no
confirmation status, openPosition does surface the distinct
already-processed error, but only after performing one automatic fallback
resubmission through the base-chain path — the no-retry part of the claim
fails on the code. -/
theorem c1_counterexample :
    (openPosition envC1 (some w1) "SOL" Direction.long 100 50 none none).1 =
      Except.error OpErr.alreadyProcessed ∧
    (openPosition envC1 (some w1) "SOL" Direction.long 100 50 none none).2.countP
      isBaseSub = 1 := by
  have hop := openPosition_fallback envC1 w1 "SOL" 0 Direction.long 100 50 none none
    OpErr.alreadyProcessed rfl (by rw [envC1_mb])
  rw [hop, envC1_mb, envC1_dir]
  constructor
  · rfl
  · simp [isBaseSub, List.countP_cons, List.countP_nil]

/-- C1 amended: with an already-processed answer and no retrievable
confirmation status, the failing attempt itself raises the distinct
already-processed error after its single submission and performs no retry
of its own; the openPosition wrapper, however, catches any rollup-attempt
error — this one included — and performs its one base-chain fallback,
surfacing the outcome of the fallback. -/
theorem c1_already_processed_no_status (env : Env) (w : Bytes) (sym : String) (pi : Nat)
    (d : Direction) (cp size : ℚ) (tp sl : Option ℚ) (s : String) (data : Bytes)
    (hpair : tradingPairIndex sym = some pi)
    (hsend : env.send 0 = SendRes.alreadyProcessed)
    (htx : env.txSig 0 = some s)
    (hsig : env.sigStatus s = SigStatusRes.noStatus)
    (hready : rollupReady env w pi size data) :
    (∃ b, openMagicBlockPosition env 0 w pi d cp size tp sl =
      (Except.error OpErr.alreadyProcessed, [SubEvent.openSub PathTag.rollup b])) ∧
    openPosition env (some w) sym d cp size tp sl =
      ((openDirectPosition env 1 w pi d cp size tp sl).1,
        (openMagicBlockPosition env 0 w pi d cp size tp sl).2 ++
          (openDirectPosition env 1 w pi d cp size tp sl).2) := by
  have hmb : openMagicBlockPosition env 0 w pi d cp size tp sl =
      (Except.error OpErr.alreadyProcessed,
        [SubEvent.openSub PathTag.rollup
          (buildOpen w pi d (mfloor (size / cp * 1000000000)) (mfloor (cp * 1000000))
            (optScaled tp) (optScaled sl) data)]) := by
    rw [openMagicBlockPosition_send env 0 w pi d cp size tp sl data hready]
    simp [sendAndRecover, hsend, htx, hsig]
  exact ⟨⟨_, hmb⟩,
    openPosition_fallback env w sym pi d cp size tp sl OpErr.alreadyProcessed hpair
      (by rw [hmb])⟩

/-- Witness for the amended C1 at a concrete environment. -/
theorem c1_already_processed_no_status_witness :
    (∃ b, openMagicBlockPosition envC1 0 w1 0 Direction.long 100 50 none none =
      (Except.error OpErr.alreadyProcessed, [SubEvent.openSub PathTag.rollup b])) ∧
    openPosition envC1 (some w1) "SOL" Direction.long 100 50 none none =
      ((openDirectPosition envC1 1 w1 0 Direction.long 100 50 none none).1,
        (openMagicBlockPosition envC1 0 w1 0 Direction.long 100 50 none none).2 ++
          (openDirectPosition envC1 1 w1 0 Direction.long 100 50 none none).2) :=
  c1_already_processed_no_status envC1 w1 "SOL" 0 Direction.long 100 50 none none "sigA"
    acctRich rfl rfl rfl rfl envC1_rollupReady

/-- Concrete environment for C3, identical in content to the C1 one:
already-processed submissions and a status query returning no status. -/
def envC3 : Env :=
  { accountInfo := fun _ => Fetch.found acctRich
    send := fun _ => SendRes.alreadyProcessed
    txSig := fun _ => some "sigA"
    sigStatus := fun _ => SigStatusRes.noStatus
    scan := fun _ => ScanRes.failed }

theorem envC3_mb : openMagicBlockPosition envC3 0 w1 0 Direction.long 100 50 none none =
    (Except.error OpErr.alreadyProcessed,
      [SubEvent.openSub PathTag.rollup
        (buildOpen w1 0 Direction.long (mfloor ((50 : ℚ) / 100 * 1000000000))
          (mfloor ((100 : ℚ) * 1000000)) (optScaled none) (optScaled none) acctRich)]) := by
  rw [openMagicBlockPosition_send envC3 0 w1 0 Direction.long 100 50 none none acctRich
    ⟨rfl, acctRich_length, by rw [acctRich_parse]; norm_num [toUserAccountData, mfloor]⟩]
  simp [sendAndRecover, envC3]

theorem envC3_dir : openDirectPosition envC3 1 w1 0 Direction.long 100 50 none none =
    (Except.error OpErr.alreadyProcessed,
      [SubEvent.openSub PathTag.base
        (buildOpen w1 0 Direction.long (mfloor ((50 : ℚ) / 100 * 1000000000))
          (mfloor ((100 : ℚ) * 1000000)) (optScaled none) (optScaled none) acctRich)]) := by
  rw [openDirectPosition_send envC3 1 w1 0 Direction.long 100 50 none none acctRich
    ⟨rfl, acctRich_length, by rw [acctRich_parse]; norm_num [toUserAccountData, mfloor]⟩]
  simp [sendAndRecover, envC3]

/-- Counterexample to C3 as stated: a run in which the rollup attempt ends
in the ambiguous-duplicate outcome and openPosition nevertheless performs
a base-chain fallback submission — on that outcome the code does fall
back, contrary to the last clause of the claim. -/
theorem c3_counterexample :
    (openMagicBlockPosition envC3 0 w1 0 Direction.long 100 50 none none).1 =
      Except.error OpErr.alreadyProcessed ∧
    (openPosition envC3 (some w1) "SOL" Direction.long 100 50 none none).2.countP
      isBaseSub = 1 := by
  have hop := openPosition_fallback envC3 w1 "SOL" 0 Direction.long 100 50 none none
    OpErr.alreadyProcessed rfl (by rw [envC3_mb])
  constructor
  · rw [envC3_mb]
  · rw [hop, envC3_mb, envC3_dir]
    simp [isBaseSub, List.countP_cons, List.countP_nil]

/-- C3 amended: openPosition always attempts the rollup path first and, on
every failure of that attempt — the ambiguous-duplicate outcome included —
makes exactly one fallback call to the base-chain path with the same
validated inputs, surfacing the outcome of the fallback; the rollup attempt
never submits through the base chain, the fallback never submits through
the rollup and performs at most one submission, and openPosition as a
whole never performs more than one base-chain submission. -/
theorem c3_single_fallback (env : Env) (w : Bytes) (sym : String) (pi : Nat) (d : Direction)
    (cp size : ℚ) (tp sl : Option ℚ) (hpair : tradingPairIndex sym = some pi) :
    (∀ s, (openMagicBlockPosition env 0 w pi d cp size tp sl).1 = Except.ok s →
      openPosition env (some w) sym d cp size tp sl =
        openMagicBlockPosition env 0 w pi d cp size tp sl) ∧
    (∀ e, (openMagicBlockPosition env 0 w pi d cp size tp sl).1 = Except.error e →
      openPosition env (some w) sym d cp size tp sl =
        ((openDirectPosition env 1 w pi d cp size tp sl).1,
          (openMagicBlockPosition env 0 w pi d cp size tp sl).2 ++
            (openDirectPosition env 1 w pi d cp size tp sl).2)) ∧
    (openMagicBlockPosition env 0 w pi d cp size tp sl).2.countP isBaseSub = 0 ∧
    (openDirectPosition env 1 w pi d cp size tp sl).2.countP isRollupSub = 0 ∧
    (openDirectPosition env 1 w pi d cp size tp sl).2.length ≤ 1 ∧
    (openPosition env (some w) sym d cp size tp sl).2.countP isBaseSub ≤ 1 := by
  have hmbBase : (openMagicBlockPosition env 0 w pi d cp size tp sl).2.countP isBaseSub = 0 := by
    rcases openMagicBlockPosition_log env 0 w pi d cp size tp sl with h | ⟨b, h⟩ <;>
      simp [h, isBaseSub, List.countP_cons, List.countP_nil]
  have hdirRollup : (openDirectPosition env 1 w pi d cp size tp sl).2.countP isRollupSub = 0 := by
    rcases openDirectPosition_log env 1 w pi d cp size tp sl with h | ⟨b, h⟩ <;>
      simp [h, isRollupSub, List.countP_cons, List.countP_nil]
  have hdirLen : (openDirectPosition env 1 w pi d cp size tp sl).2.length ≤ 1 := by
    rcases openDirectPosition_log env 1 w pi d cp size tp sl with h | ⟨b, h⟩ <;> simp [h]
  have hdirBase : (openDirectPosition env 1 w pi d cp size tp sl).2.countP isBaseSub ≤ 1 := by
    rcases openDirectPosition_log env 1 w pi d cp size tp sl with h | ⟨b, h⟩ <;>
      simp [h, isBaseSub, List.countP_cons, List.countP_nil]
  refine ⟨fun s hs => openPosition_ok env w sym pi d cp size tp sl s hpair hs,
    fun e he => openPosition_fallback env w sym pi d cp size tp sl e hpair he, hmbBase,
    hdirRollup, hdirLen, ?_⟩
  rcases hr : (openMagicBlockPosition env 0 w pi d cp size tp sl).1 with e | s
  · rw [openPosition_fallback env w sym pi d cp size tp sl e hpair hr]
    simp only [List.countP_append, hmbBase, Nat.zero_add]
    exact hdirBase
  · rw [openPosition_ok env w sym pi d cp size tp sl s hpair hr, hmbBase]
    exact Nat.zero_le 1

/-- Witness for the amended C3 at a concrete environment. -/
theorem c3_single_fallback_witness :
    (openPosition envC3 (some w1) "SOL" Direction.long 100 50 none none).2.countP
        isBaseSub ≤ 1 ∧
    (openMagicBlockPosition envC3 0 w1 0 Direction.long 100 50 none none).2.countP
        isBaseSub = 0 :=
  ⟨(c3_single_fallback envC3 w1 "SOL" 0 Direction.long 100 50 none none rfl).2.2.2.2.2,
   (c3_single_fallback envC3 w1 "SOL" 0 Direction.long 100 50 none none rfl).2.2.1⟩

/-- C4: with the account record readable, a buy whose quote cost exceeds
the token-in balance raises InsufficientBalance carrying the computed
required and available values with no submission performed, as does a
position open whose margin exceeds the balance beyond the 0.01 tolerance
(the tolerance applies only to the margin comparison); a request costing
no more than the balance — in particular exactly the balance — passes
validation and one submission is performed. -/
theorem c4_insufficient_balance (env : Env) (w : Bytes) (sym : String) (pi : Nat)
    (d : Direction) (cp size : ℚ) (tp sl : Option ℚ) (i : Nat) (data : Bytes)
    (hpair : tradingPairIndex sym = some pi)
    (hai : env.accountInfo (userAccountPDA w pi) = Fetch.found data)
    (hlen : 65 ≤ data.length) :
    ((toUserAccountData (parseUserAccountRaw data)).tokenInBalance <
        ((mfloor (size * 1000000) : ℤ) : ℚ) / 1000000 - 1 / 100 →
      openMagicBlockPosition env i w pi d cp size tp sl =
        (Except.error (OpErr.insufficientBalance
          (((mfloor (size * 1000000) : ℤ) : ℚ) / 1000000)
          (toUserAccountData (parseUserAccountRaw data)).tokenInBalance), [])) ∧
    ((toUserAccountData (parseUserAccountRaw data)).tokenInBalance < size →
      executeSpotTrade env (some w) sym SpotAction.buy cp size =
        (Except.error (OpErr.insufficientBalance size
          (toUserAccountData (parseUserAccountRaw data)).tokenInBalance), [])) ∧
    (¬ (toUserAccountData (parseUserAccountRaw data)).tokenInBalance < size →
      (executeSpotTrade env (some w) sym SpotAction.buy cp size).2.length = 1) ∧
    (¬ (toUserAccountData (parseUserAccountRaw data)).tokenInBalance <
        ((mfloor (size * 1000000) : ℤ) : ℚ) / 1000000 - 1 / 100 →
      (openMagicBlockPosition env i w pi d cp size tp sl).2.length = 1) := by
  refine ⟨?_, ?_, ?_, ?_⟩
  · intro hcond
    simp only [openMagicBlockPosition, getUserAccountData, hai, hlen, if_true, hcond]
  · intro hcond
    simp only [executeSpotTrade, getUserAccountData, hpair, hai, hlen, if_true, hcond]
  · intro hcond
    simp only [executeSpotTrade, getUserAccountData, hpair, hai, hlen, if_true, hcond,
      if_false]
    cases hs : env.send 0 with
    | okSig s => simp [hs]
    | rejected => simp [hs]
    | alreadyProcessed =>
      cases ht : env.txSig 0 with
      | none => simp [hs, ht]
      | some s => simp [hs, ht]
  · intro hcond
    rw [openMagicBlockPosition_send env i w pi d cp size tp sl data ⟨hai, hlen, hcond⟩,
      sendAndRecover_log]
    rfl

/-- Concrete account record with token-in balance 100.00 for the C4
witness. -/
def acct100 : Bytes :=
  encodeUserAccountRaw (List.replicate 8 0) (List.replicate 32 0) 0
    ⟨100000000, 0, 7⟩ (List.replicate 15 0)

theorem acct100_parse : parseUserAccountRaw acct100 = ⟨100000000, 0, 7⟩ :=
  parseUserAccountRaw_encodeUserAccountRaw _ _ _ _ _ (by simp) (by simp)
    (by norm_num) (by norm_num) (by norm_num)

theorem acct100_length : 65 ≤ acct100.length := by
  simp [acct100, encodeUserAccountRaw, List.length_append, u64le_length]

/-- Concrete environment for the C4 witness. -/
def envC4 : Env :=
  { accountInfo := fun _ => Fetch.found acct100
    send := fun _ => SendRes.okSig "sigB"
    txSig := fun _ => some "sigB"
    sigStatus := fun _ => SigStatusRes.confirmedStatus
    scan := fun _ => ScanRes.failed }

/-- Witness for C4: balance 100.00 with a buy costing 100.01 is rejected
with the computed values and no submission; a buy costing exactly 100.00
is accepted and submitted; a margin of 100.02 exceeds the tolerance and
is rejected before submission. -/
theorem c4_insufficient_balance_witness :
    executeSpotTrade envC4 (some w1) "SOL" SpotAction.buy 10 (10001 / 100) =
      (Except.error (OpErr.insufficientBalance (10001 / 100)
        (toUserAccountData (parseUserAccountRaw acct100)).tokenInBalance), []) ∧
    (toUserAccountData (parseUserAccountRaw acct100)).tokenInBalance = 100 ∧
    (executeSpotTrade envC4 (some w1) "SOL" SpotAction.buy 10 100).2.length = 1 ∧
    openMagicBlockPosition envC4 0 w1 0 Direction.long 10 (10002 / 100) none none =
      (Except.error (OpErr.insufficientBalance
        (((mfloor ((10002 / 100 : ℚ) * 1000000) : ℤ) : ℚ) / 1000000)
        (toUserAccountData (parseUserAccountRaw acct100)).tokenInBalance), []) ∧
    ((mfloor ((10002 / 100 : ℚ) * 1000000) : ℤ) : ℚ) / 1000000 = 10002 / 100 := by
  refine ⟨(c4_insufficient_balance envC4 w1 "SOL" 0 Direction.long 10 (10001 / 100) none
      none 0 acct100 rfl rfl acct100_length).2.1
      (by rw [acct100_parse]; norm_num [toUserAccountData]),
    by rw [acct100_parse]; norm_num [toUserAccountData],
    (c4_insufficient_balance envC4 w1 "SOL" 0 Direction.long 10 100 none
      none 0 acct100 rfl rfl acct100_length).2.2.1
      (by rw [acct100_parse]; norm_num [toUserAccountData]),
    (c4_insufficient_balance envC4 w1 "SOL" 0 Direction.long 10 (10002 / 100) none
      none 0 acct100 rfl rfl acct100_length).1
      (by rw [acct100_parse]; norm_num [toUserAccountData, mfloor]),
    by norm_num [mfloor]⟩

theorem readU64_encodeOpenArgs_amount (d : Direction) (a : OpenArgs)
    (h : a.amountTokenOut < 2 ^ 64) :
    readU64 (encodeOpenArgs d a) 8 = a.amountTokenOut := by
  obtain ⟨a1, a2, a3, a4⟩ := a
  simp only at h
  have hs : (selector (openMethodName d)).length = 8 := selector_length _
  have e : encodeOpenArgs d ⟨a1, a2, a3, a4⟩ =
      selector (openMethodName d) ++ (u64le a1 ++ (u64le a2 ++ (u64le a3 ++ u64le a4))) := by
    simp [encodeOpenArgs, List.append_assoc]
  rw [e, show (8 : Nat) = 8 + 0 from rfl, readU64_shift _ _ 8 0 hs, readU64_here,
    Nat.mod_eq_of_lt h]

theorem readU64_encodeOpenArgs_price (d : Direction) (a : OpenArgs)
    (h : a.priceScaled < 2 ^ 64) :
    readU64 (encodeOpenArgs d a) 16 = a.priceScaled := by
  obtain ⟨a1, a2, a3, a4⟩ := a
  simp only at h
  have hs : (selector (openMethodName d)).length = 8 := selector_length _
  have e : encodeOpenArgs d ⟨a1, a2, a3, a4⟩ =
      selector (openMethodName d) ++ (u64le a1 ++ (u64le a2 ++ (u64le a3 ++ u64le a4))) := by
    simp [encodeOpenArgs, List.append_assoc]
  rw [e, show (16 : Nat) = 8 + 8 from rfl, readU64_shift _ _ 8 8 hs,
    show (8 : Nat) = 8 + 0 from rfl, readU64_shift _ _ 8 0 (u64le_length a1),
    readU64_here, Nat.mod_eq_of_lt h]

/-- C5: for the scenario inputs of openPosition — pair SOL, long, price 198.50,
size 500 — against any readable account state passing the margin check,
the single rollup submission carries an instruction whose amount field is
floor(500 / 198.50 * 10^9) = 2518891687 and whose price field is
198500000, and its position address is derived from the totalPositions
counter read from the account bytes the environment serves at build
time. -/
theorem c5_open_scenario (env : Env) (w : Bytes) (data : Bytes) (tp sl : Option ℚ)
    (hready : rollupReady env w 0 500 data) :
    tradingPairIndex "SOL" = some 0 ∧
    ∃ b, (openMagicBlockPosition env 0 w 0 Direction.long (397 / 2) 500 tp sl).2 =
        [SubEvent.openSub PathTag.rollup b] ∧
      readU64 b.data 8 = 2518891687 ∧
      readU64 b.data 16 = 198500000 ∧
      b.totalPositions = readU64 data 57 ∧
      b.positionAddr = findProgAddr [strBytes "position", w, [0], u64le (readU64 data 57)]
        paperProgramId := by
  refine ⟨rfl, ?_⟩
  rw [openMagicBlockPosition_send env 0 w 0 Direction.long (397 / 2) 500 tp sl data hready]
  refine ⟨_, sendAndRecover_log env 0 PathTag.rollup _, ?_, ?_, rfl, rfl⟩
  · have hval : (mfloor ((500 : ℚ) / (397 / 2) * 1000000000)).toNat = 2518891687 := by
      rw [show mfloor ((500 : ℚ) / (397 / 2) * 1000000000) = 2518891687 from by
        norm_num [mfloor]]
      rfl
    have hb : (mfloor ((500 : ℚ) / (397 / 2) * 1000000000)).toNat < 2 ^ 64 := by
      rw [hval]; norm_num
    simp only [buildOpen]
    rw [readU64_encodeOpenArgs_amount Direction.long _ hb]
    exact hval
  · have hval : (mfloor ((397 / 2 : ℚ) * 1000000)).toNat = 198500000 := by
      rw [show mfloor ((397 / 2 : ℚ) * 1000000) = 198500000 from by norm_num [mfloor]]
      rfl
    have hb : (mfloor ((397 / 2 : ℚ) * 1000000)).toNat < 2 ^ 64 := by
      rw [hval]; norm_num
    simp only [buildOpen]
    rw [readU64_encodeOpenArgs_price Direction.long _ hb]
    exact hval

/-- Concrete environment for the C5 witness: account readable with
token-in balance 1000.00 and totalPositions 7. -/
def envC5 : Env :=
  { accountInfo := fun _ => Fetch.found acctRich
    send := fun _ => SendRes.okSig "sigC"
    txSig := fun _ => some "sigC"
    sigStatus := fun _ => SigStatusRes.confirmedStatus
    scan := fun _ => ScanRes.failed }

/-- Witness for C5 at the concrete scenario account state. -/
theorem c5_open_scenario_witness :
    tradingPairIndex "SOL" = some 0 ∧
    ∃ b, (openMagicBlockPosition envC5 0 w1 0 Direction.long (397 / 2) 500 none none).2 =
        [SubEvent.openSub PathTag.rollup b] ∧
      readU64 b.data 8 = 2518891687 ∧
      readU64 b.data 16 = 198500000 ∧
      b.totalPositions = readU64 acctRich 57 ∧
      b.positionAddr = findProgAddr
        [strBytes "position", w1, [0], u64le (readU64 acctRich 57)] paperProgramId :=
  c5_open_scenario envC5 w1 acctRich none none
    ⟨rfl, acctRich_length, by rw [acctRich_parse]; norm_num [toUserAccountData, mfloor]⟩

/-- Environment for C7 in which the account read throws a network error. -/
def envC7net : Env :=
  { accountInfo := fun _ => Fetch.netErr
    send := fun _ => SendRes.rejected
    txSig := fun _ => none
    sigStatus := fun _ => SigStatusRes.noStatus
    scan := fun _ => ScanRes.failed }

/-- Environment for C7 in which the account has never been created. -/
def envC7miss : Env :=
  { accountInfo := fun _ => Fetch.missing
    send := fun _ => SendRes.rejected
    txSig := fun _ => none
    sigStatus := fun _ => SigStatusRes.noStatus
    scan := fun _ => ScanRes.failed }

/-- Counterexample to C7 as stated: getUserAccountData also returns none
when the account read throws — an outcome in which the account was not
reported missing — and that result is identical to the not-yet-created
result, so the caller cannot distinguish the two. -/
theorem c7_counterexample :
    getUserAccountData envC7net (some w1) 0 = none ∧
    envC7net.accountInfo (userAccountPDA w1 0) ≠ Fetch.missing ∧
    getUserAccountData envC7miss (some w1) 0 = none := by
  refine ⟨rfl, ?_, rfl⟩
  intro h
  cases h

/-- C7 amended: getUserAccountData returns none — not an error — when the
account has not yet been created, but equally returns none when the read
throws or when no wallet is set, and returns the decoded record otherwise;
the not-initialized outcome is therefore not distinguishable from a
network failure by the return value. -/
theorem c7_none_on_missing_and_failure (env : Env) (w : Bytes) (pi : Nat) :
    (env.accountInfo (userAccountPDA w pi) = Fetch.missing →
      getUserAccountData env (some w) pi = none) ∧
    (env.accountInfo (userAccountPDA w pi) = Fetch.netErr →
      getUserAccountData env (some w) pi = none) ∧
    (∀ data, env.accountInfo (userAccountPDA w pi) = Fetch.found data →
      65 ≤ data.length →
      getUserAccountData env (some w) pi =
        some (toUserAccountData (parseUserAccountRaw data))) ∧
    getUserAccountData env none pi = none := by
  refine ⟨?_, ?_, ?_, rfl⟩
  · intro h
    simp [getUserAccountData, h]
  · intro h
    simp [getUserAccountData, h]
  · intro data h hlen
    simp [getUserAccountData, h, hlen]

/-- Witness for the amended C7 at the concrete environments. -/
theorem c7_none_on_missing_and_failure_witness :
    getUserAccountData envC7miss (some w1) 0 = none ∧
    getUserAccountData envC7net (some w1) 0 = none ∧
    getUserAccountData envC5 (some w1) 0 =
      some (toUserAccountData (parseUserAccountRaw acctRich)) :=
  ⟨(c7_none_on_missing_and_failure envC7miss w1 0).1 rfl,
   (c7_none_on_missing_and_failure envC7net w1 0).2.1 rfl,
   (c7_none_on_missing_and_failure envC5 w1 0).2.2.1 acctRich rfl acctRich_length⟩

/-- Environment for C8: account readable, every scan throwing, submission
answered already-processed with no extractable signature. -/
def envC8 : Env :=
  { accountInfo := fun _ => Fetch.found acctRich
    send := fun _ => SendRes.alreadyProcessed
    txSig := fun _ => none
    sigStatus := fun _ => SigStatusRes.noStatus
    scan := fun _ => ScanRes.failed }

/-- Counterexample to C8 as stated: fetchLeaderboard swallows a failing
scan and returns the success-shaped empty list, and executeSpotTrade turns
an already-processed rejection with no extractable signature into the
success-shaped placeholder string. -/
theorem c8_counterexample :
    envC8.scan tradingAccountComponentId = ScanRes.failed ∧
    fetchLeaderboard envC8 (some w1) = [] ∧
    (executeSpotTrade envC8 (some w1) "SOL" SpotAction.buy 10 50).1 =
      Except.ok "spot_trade_success" := by
  refine ⟨rfl, rfl, ?_⟩
  have hbal : ¬ (toUserAccountData (parseUserAccountRaw acctRich)).tokenInBalance <
      (50 : ℚ) := by
    rw [acctRich_parse]; norm_num [toUserAccountData]
  have hsol : tradingPairIndex "SOL" = some 0 := rfl
  simp [executeSpotTrade, getUserAccountData, envC8, acctRich_length, hbal, hsol]

/-- C8 amended: the mutating paths surface typed errors, but the fetch
operations swallow scan failures and return a success-shaped empty list,
and executeSpotTrade answers an already-processed rejection with a success
result — the placeholder string when no signature can be extracted —
without confirming the outcome. -/
theorem c8_typed_or_swallowed :
    (∀ (env : Env) (ce : Bytes), env.scan tradingAccountComponentId = ScanRes.failed →
      fetchLeaderboard env (some ce) = []) ∧
    (∀ (env : Env) (w : Bytes) (entity : Option Bytes),
      env.scan positionComponentId = ScanRes.failed →
      env.scan paperProgramId = ScanRes.failed →
      fetchPositions env (some w) entity = []) ∧
    (∀ (env : Env) (w : Bytes) (sym : String) (pi : Nat) (cp size : ℚ) (data : Bytes),
      tradingPairIndex sym = some pi →
      env.accountInfo (userAccountPDA w pi) = Fetch.found data →
      65 ≤ data.length →
      ¬ (toUserAccountData (parseUserAccountRaw data)).tokenInBalance < size →
      env.send 0 = SendRes.alreadyProcessed →
      env.txSig 0 = none →
      (executeSpotTrade env (some w) sym SpotAction.buy cp size).1 =
        Except.ok "spot_trade_success") := by
  refine ⟨?_, ?_, ?_⟩
  · intro env ce h
    simp [fetchLeaderboard, h]
  · intro env w entity h1 h2
    cases entity with
    | none => simp [fetchPositions, h1, h2]
    | some e => simp [fetchPositions, h1, h2]
  · intro env w sym pi cp size data hpair hai hlen hbal hsend htx
    simp only [executeSpotTrade, getUserAccountData, hpair, hai, hlen, if_true, hbal,
      if_false, hsend, htx]

/-- Witness for the amended C8 at the concrete environment. -/
theorem c8_typed_or_swallowed_witness :
    fetchLeaderboard envC8 (some w1) = [] ∧
    fetchPositions envC8 (some w1) (some w1) = [] ∧
    (executeSpotTrade envC8 (some w1) "SOL" SpotAction.buy 10 100).1 =
      Except.ok "spot_trade_success" :=
  ⟨c8_typed_or_swallowed.1 envC8 w1 rfl,
   c8_typed_or_swallowed.2.1 envC8 w1 (some w1) rfl rfl,
   c8_typed_or_swallowed.2.2 envC8 w1 "SOL" 0 10 100 acctRich rfl rfl acctRich_length
     (by rw [acctRich_parse]; norm_num [toUserAccountData]) rfl rfl⟩

end Blockberg
